import Mathlib

/-!
Verification of the boids-rs 3D flocking core (`src/boids/boid3d.rs`).

Floating-point scalars (`U : BaseNum + Float`) are embedded as real numbers;
`cgmath::Vector3<U>` becomes a three-component real vector `Vec3`.  All
operations of `Boid3D` are translated directly from the source; helpers that
live outside the provided source tree (`limit_magnitude_v3`, `Flock`,
`BoidWeights`) are modelled from the specification and marked as such.
-/

namespace Boids

noncomputable section

/-- Three-component real vector, embedding `cgmath::Vector3<U>`. -/
@[ext]
structure Vec3 where
  x : ℝ
  y : ℝ
  z : ℝ

namespace Vec3

/-- The zero vector `Vector3::new(0, 0, 0)`. -/
def zero : Vec3 := ⟨0, 0, 0⟩

/-- Componentwise vector addition (`AddAssign` / `add` on `Vector3`). -/
def add (a b : Vec3) : Vec3 := ⟨a.x + b.x, a.y + b.y, a.z + b.z⟩

/-- Componentwise vector subtraction (`Sub` on `Vector3`). -/
def sub (a b : Vec3) : Vec3 := ⟨a.x - b.x, a.y - b.y, a.z - b.z⟩

/-- Vector-by-scalar multiplication (`Mul<U>` / `MulAssign<U>` on `Vector3`). -/
def smul (a : Vec3) (c : ℝ) : Vec3 := ⟨a.x * c, a.y * c, a.z * c⟩

/-- Vector-by-scalar division (`Div<U>` / `DivAssign<U>` on `Vector3`). -/
def divScalar (a : Vec3) (c : ℝ) : Vec3 := ⟨a.x / c, a.y / c, a.z / c⟩

/-- Euclidean magnitude (`InnerSpace::magnitude`): square root of the dot
product of the vector with itself. -/
def magnitude (a : Vec3) : ℝ :=
  Real.sqrt (a.x * a.x + a.y * a.y + a.z * a.z)

/-- Normalization (`InnerSpace::normalize`): the vector scaled by the
reciprocal of its magnitude.  Over the reals a zero vector maps to the zero
vector (the source guards every call site with a positive-magnitude check). -/
def normalize (a : Vec3) : Vec3 := a.smul (1 / a.magnitude)

/-- Euclidean distance (`MetricSpace::distance`): magnitude of the
difference of the two points. -/
def distance (a b : Vec3) : ℝ := (b.sub a).magnitude

end Vec3

/-- Modelled from the spec: `limit_magnitude_v3` from the crate's
`boids/limits.rs`, which is not part of the provided source tree.  Spec §4.1:
"`limit_magnitude(v, max)`: if `|v| > max`, returns `v` scaled to length
`max`; otherwise returns `v` unchanged." -/
def limit_magnitude_v3 (v : Vec3) (max : ℝ) : Vec3 :=
  if max < v.magnitude then v.normalize.smul max else v

/-- Modelled from the spec: `BoidWeights` (spec §3), "four non-negative
scalars `{separation, alignment, cohesion, targeting}`".  The struct itself
lives outside the provided source tree. -/
structure BoidWeights where
  separation : ℝ
  alignment : ℝ
  cohesion : ℝ
  targeting : ℝ

/-- The 3D boid (`Boid3D<U>` in `boid3d.rs`): kinematic state, per-agent
limits (`max_speed`, `max_force`, turn-rate bound `r`) and blend weights. -/
@[ext]
structure Boid3D where
  position : Vec3
  velocity : Vec3
  acceleration : Vec3
  max_speed : ℝ
  max_force : ℝ
  r : ℝ
  weights : BoidWeights

/-- Modelled from the spec: the `Flock` context (spec §3), "`{boids: ordered
collection of Boid, goal_separation, goal_alignment, goal_cohesion: scalar
radii, target: optional point}`".  The struct lives in `flock.rs`, outside
the provided source tree; `boid3d.rs` reads exactly these five fields. -/
structure Flock where
  boids : List Boid3D
  goal_separation : ℝ
  goal_alignment : ℝ
  goal_cohesion : ℝ
  target : Option Vec3

namespace Boid3D

/-- One iteration of the neighbor loop of `separate`: if the other boid is at
strict distance `0 < d < goal_separation`, add the normalized away-vector
divided by the raw distance to the steering accumulator and bump the count. -/
def sepStep (b : Boid3D) (gs : ℝ) (acc : Vec3 × ℝ) (other : Boid3D) :
    Vec3 × ℝ :=
  let distance := Vec3.distance b.position other.position
  if 0 < distance ∧ distance < gs then
    (acc.1.add (((b.position.sub other.position).normalize).divScalar distance), acc.2 + 1)
  else acc

/-- `Boid3D::separate`: accumulate inverse-distance-weighted away-vectors
over the flock, average by the neighbor count, and apply the Reynolds
conversion only when the averaged steer has positive magnitude. -/
def separate (b : Boid3D) (flock : Flock) : Vec3 :=
  let acc := flock.boids.foldl (b.sepStep flock.goal_separation) (Vec3.zero, 0)
  let steer := if 0 < acc.2 then acc.1.divScalar acc.2 else acc.1
  if 0 < steer.magnitude then
    limit_magnitude_v3 (((steer.normalize).smul b.max_speed).sub b.velocity) b.max_force
  else steer

/-- One iteration of the neighbor loop of `align`: within strict distance
`0 < d < goal_alignment`, add the neighbor's velocity and bump the count. -/
def alignStep (b : Boid3D) (ga : ℝ) (acc : Vec3 × ℝ) (other : Boid3D) :
    Vec3 × ℝ :=
  let distance := Vec3.distance b.position other.position
  if 0 < distance ∧ distance < ga then (acc.1.add other.velocity, acc.2 + 1)
  else acc

/-- `Boid3D::align`: average neighbor velocities and, whenever the neighbor
count is positive, apply the Reynolds conversion; otherwise return zero. -/
def align (b : Boid3D) (flock : Flock) : Vec3 :=
  let acc := flock.boids.foldl (b.alignStep flock.goal_alignment) (Vec3.zero, 0)
  if 0 < acc.2 then
    limit_magnitude_v3
      ((((acc.1.divScalar acc.2).normalize).smul b.max_speed).sub b.velocity) b.max_force
  else Vec3.zero

/-- One iteration of the neighbor loop of `cohesion`: within strict distance
`0 < d < goal_cohesion`, add the neighbor's position and bump the count. -/
def cohStep (b : Boid3D) (gc : ℝ) (acc : Vec3 × ℝ) (other : Boid3D) :
    Vec3 × ℝ :=
  let distance := Vec3.distance b.position other.position
  if 0 < distance ∧ distance < gc then (acc.1.add other.position, acc.2 + 1)
  else acc

/-- `Boid3D::cohesion`: average neighbor positions, subtract the querying
boid's position, and, whenever the neighbor count is positive, apply the
Reynolds conversion; otherwise return zero. -/
def cohesion (b : Boid3D) (flock : Flock) : Vec3 :=
  let acc := flock.boids.foldl (b.cohStep flock.goal_cohesion) (Vec3.zero, 0)
  if 0 < acc.2 then
    limit_magnitude_v3
      (((((acc.1.divScalar acc.2).sub b.position).normalize).smul b.max_speed).sub b.velocity)
      b.max_force
  else Vec3.zero

/-- `Boid3D::with_force`: add the force to the velocity, clamp the velocity
to `max_speed`, advance the position by the clamped velocity, and multiply
the acceleration by zero, returning the new boid value. -/
def with_force (b : Boid3D) (force : Vec3) : Boid3D :=
  let v := limit_magnitude_v3 (b.velocity.add force) b.max_speed
  { b with velocity := v, position := b.position.add v, acceleration := b.acceleration.smul 0 }

/-- `Boid3D::update`: compute the four weighted forces from the flock
snapshot and apply them sequentially through `with_force` in the order
separation, alignment, cohesion, targeting. -/
def update (b : Boid3D) (flock : Flock) : Boid3D :=
  let weights := b.weights
  let separation := (b.separate flock).smul weights.separation
  let alignmentF := (b.align flock).smul weights.alignment
  let cohesionF := (b.cohesion flock).smul weights.cohesion
  let targetingF :=
    ((flock.target.map (fun t => t.sub b.position)).getD Vec3.zero).smul weights.targeting
  (((b.with_force separation).with_force alignmentF).with_force cohesionF).with_force
    targetingF

/-- The steering-force accumulator of `separate`: the pair (accumulated
steer vector, neighbor count) produced by the neighbor loop. -/
def sepAcc (b : Boid3D) (flock : Flock) : Vec3 × ℝ :=
  flock.boids.foldl (b.sepStep flock.goal_separation) (Vec3.zero, 0)

/-- The accumulator of `align`: (sum of neighbor velocities, count). -/
def alignAcc (b : Boid3D) (flock : Flock) : Vec3 × ℝ :=
  flock.boids.foldl (b.alignStep flock.goal_alignment) (Vec3.zero, 0)

/-- The accumulator of `cohesion`: (sum of neighbor positions, count). -/
def cohAcc (b : Boid3D) (flock : Flock) : Vec3 × ℝ :=
  flock.boids.foldl (b.cohStep flock.goal_cohesion) (Vec3.zero, 0)

/-- The Reynolds conversion as worded by the spec glossary: "normalize →
scale to max speed → subtract current velocity → clamp to max force". -/
def reynolds (b : Boid3D) (desired : Vec3) : Vec3 :=
  limit_magnitude_v3 ((desired.normalize.smul b.max_speed).sub b.velocity) b.max_force

/-- A flock member contributes to a behavior with the given radius exactly
when its distance from the querying boid satisfies `0 < d < radius`. -/
def withinRadius (b : Boid3D) (radius : ℝ) (other : Boid3D) : Prop :=
  0 < Vec3.distance b.position other.position ∧
    Vec3.distance b.position other.position < radius

instance (b : Boid3D) (radius : ℝ) (other : Boid3D) :
    Decidable (b.withinRadius radius other) :=
  inferInstanceAs (Decidable (0 < Vec3.distance b.position other.position ∧
    Vec3.distance b.position other.position < radius))

end Boid3D

/-- Concrete boid at the origin moving at unit speed along the x-axis, with
the crate's default limits (`max_speed = 2`, `max_force = 0.03`, `r = 2`)
and unit weights. -/
def b0 : Boid3D :=
  ⟨⟨0, 0, 0⟩, ⟨1, 0, 0⟩, ⟨0, 0, 0⟩, 2, 3 / 100, 2, ⟨1, 1, 1, 1⟩⟩

/-- Concrete one-member flock around `b0`, no target. -/
def flock0 : Flock := ⟨[b0], 1, 1, 1, none⟩

/-- Concrete stationary boid at the origin with the default limits. -/
def aC4 : Boid3D :=
  ⟨⟨0, 0, 0⟩, ⟨0, 0, 0⟩, ⟨0, 0, 0⟩, 2, 3 / 100, 2, ⟨1, 1, 1, 1⟩⟩

/-- Concrete stationary boid half a unit away from `aC4` on the x-axis. -/
def bC4 : Boid3D :=
  ⟨⟨1 / 2, 0, 0⟩, ⟨0, 0, 0⟩, ⟨0, 0, 0⟩, 2, 3 / 100, 2, ⟨1, 1, 1, 1⟩⟩

/-- Concrete two-boid flock at distance `1/2 < goal_separation = 1`. -/
def flockC4 : Flock := ⟨[aC4, bC4], 1, 1, 1, none⟩

/-- Concrete stationary boid at the origin with a large `max_force`, so the
separation steering force is not clamped away. -/
def aC9 : Boid3D :=
  ⟨⟨0, 0, 0⟩, ⟨0, 0, 0⟩, ⟨0, 0, 0⟩, 2, 100, 2, ⟨1, 1, 1, 1⟩⟩

/-- Concrete stationary neighbor one unit away from `aC9` on the x-axis. -/
def bC9 : Boid3D :=
  ⟨⟨1, 0, 0⟩, ⟨0, 0, 0⟩, ⟨0, 0, 0⟩, 2, 100, 2, ⟨1, 1, 1, 1⟩⟩

/-- Concrete flock producing two nonzero weighted forces on `aC9`: a
separation force (neighbor at distance `1 < goal_separation = 10`) and a
targeting force (target at `(8,0,0)`); alignment and cohesion radii are 0. -/
def flockC9 : Flock := ⟨[aC9, bC9], 10, 0, 0, some ⟨8, 0, 0⟩⟩

end

namespace Vec3

theorem zero_add (a : Vec3) : Vec3.zero.add a = a := by
  ext <;> simp [add, zero]

theorem add_zero (a : Vec3) : a.add Vec3.zero = a := by
  ext <;> simp [add, zero]

theorem sub_zero (a : Vec3) : a.sub Vec3.zero = a := by
  ext <;> simp [sub, zero]

theorem sub_self (a : Vec3) : a.sub a = Vec3.zero := by
  ext <;> simp [sub, zero]

theorem smul_zero_right (a : Vec3) : a.smul 0 = Vec3.zero := by
  ext <;> simp [smul, zero]

theorem zero_smul_left (c : ℝ) : Vec3.zero.smul c = Vec3.zero := by
  ext <;> simp [smul, zero]

theorem smul_one (a : Vec3) : a.smul 1 = a := by
  ext <;> simp [smul]

theorem smul_smul (a : Vec3) (c e : ℝ) : (a.smul c).smul e = a.smul (c * e) := by
  ext <;> simp [smul, mul_assoc]

theorem divScalar_eq_smul (a : Vec3) (c : ℝ) : a.divScalar c = a.smul (1 / c) := by
  ext <;> simp [divScalar, smul] <;> ring

theorem divScalar_one (a : Vec3) : a.divScalar 1 = a := by
  ext <;> simp [divScalar]

theorem magnitude_zero : Vec3.zero.magnitude = 0 := by
  simp [magnitude, zero]

theorem magnitude_nonneg (a : Vec3) : 0 ≤ a.magnitude :=
  Real.sqrt_nonneg _

theorem magnitude_eq_zero_iff (a : Vec3) : a.magnitude = 0 ↔ a = Vec3.zero := by
  constructor
  · intro h
    have hs : a.x * a.x + a.y * a.y + a.z * a.z ≤ 0 := Real.sqrt_eq_zero'.mp h
    have hx : a.x = 0 := by nlinarith [mul_self_nonneg a.x, mul_self_nonneg a.y, mul_self_nonneg a.z]
    have hy : a.y = 0 := by nlinarith [mul_self_nonneg a.x, mul_self_nonneg a.y, mul_self_nonneg a.z]
    have hz : a.z = 0 := by nlinarith [mul_self_nonneg a.x, mul_self_nonneg a.y, mul_self_nonneg a.z]
    ext <;> simp [zero, hx, hy, hz]
  · intro h
    rw [h, magnitude_zero]

theorem magnitude_pos (a : Vec3) (h : a ≠ Vec3.zero) : 0 < a.magnitude :=
  lt_of_le_of_ne (magnitude_nonneg a) fun he => h ((magnitude_eq_zero_iff a).mp he.symm)

theorem magnitude_smul (a : Vec3) (c : ℝ) : (a.smul c).magnitude = |c| * a.magnitude := by
  simp only [magnitude, smul]
  rw [show a.x * c * (a.x * c) + a.y * c * (a.y * c) + a.z * c * (a.z * c) =
      c * c * (a.x * a.x + a.y * a.y + a.z * a.z) by ring,
    Real.sqrt_mul (mul_self_nonneg c), Real.sqrt_mul_self_eq_abs]

theorem magnitude_sub_comm (a b : Vec3) : (a.sub b).magnitude = (b.sub a).magnitude := by
  simp only [magnitude, sub]
  congr 1
  ring

theorem distance_self (a : Vec3) : distance a a = 0 := by
  rw [distance, sub_self, magnitude_zero]

theorem distance_eq (a b : Vec3) : distance a b = (a.sub b).magnitude := by
  rw [distance, magnitude_sub_comm]

theorem normalize_magnitude (a : Vec3) (h : a ≠ Vec3.zero) : a.normalize.magnitude = 1 := by
  have hpos := magnitude_pos a h
  rw [normalize, magnitude_smul, abs_of_pos (one_div_pos.mpr hpos)]
  field_simp

theorem smul_ne_zero_vec (a : Vec3) (c : ℝ) (ha : a ≠ Vec3.zero) (hc : c ≠ 0) :
    a.smul c ≠ Vec3.zero := by
  intro h
  have hm := congrArg Vec3.magnitude h
  rw [magnitude_smul, magnitude_zero] at hm
  rcases mul_eq_zero.mp hm with h1 | h2
  · exact hc (abs_eq_zero.mp h1)
  · exact ha ((magnitude_eq_zero_iff a).mp h2)

end Vec3

/-- The magnitude clamp never exceeds a non-negative bound. -/
theorem limit_magnitude_le (v : Vec3) (max : ℝ) (h : 0 ≤ max) :
    (limit_magnitude_v3 v max).magnitude ≤ max := by
  unfold limit_magnitude_v3
  split
  case isTrue hlt =>
    have hv : v ≠ Vec3.zero := by
      intro h0
      rw [h0, Vec3.magnitude_zero] at hlt
      exact absurd hlt (not_lt.mpr h)
    rw [Vec3.magnitude_smul, Vec3.normalize_magnitude v hv, mul_one, abs_of_nonneg h]
  case isFalse hge => exact not_lt.mp hge

/-- The magnitude clamp leaves a vector within the bound unchanged. -/
theorem limit_magnitude_of_le (v : Vec3) (max : ℝ) (h : v.magnitude ≤ max) :
    limit_magnitude_v3 v max = v :=
  if_neg (not_lt.mpr h)

/-- Applying a zero force advances the position by the (uncapped) velocity
and zeroes the acceleration, leaving the velocity as it was. -/
theorem with_force_zero (b : Boid3D) (h : b.velocity.magnitude ≤ b.max_speed) :
    b.with_force Vec3.zero =
      { b with position := b.position.add b.velocity, acceleration := Vec3.zero } := by
  simp only [Boid3D.with_force, Vec3.add_zero, Vec3.smul_zero_right,
    limit_magnitude_of_le _ _ h]

/-- In a flock whose only member is the querying boid, `separate` finds no
neighbor (the self-distance is zero) and returns the zero vector. -/
theorem separate_single (b : Boid3D) (gs ga gc : ℝ) (tgt : Option Vec3) :
    b.separate ⟨[b], gs, ga, gc, tgt⟩ = Vec3.zero := by
  simp [Boid3D.separate, Boid3D.sepStep, Vec3.distance_self, Vec3.magnitude_zero]

/-- In a flock whose only member is the querying boid, `align` finds no
neighbor and returns the zero vector. -/
theorem align_single (b : Boid3D) (gs ga gc : ℝ) (tgt : Option Vec3) :
    b.align ⟨[b], gs, ga, gc, tgt⟩ = Vec3.zero := by
  simp [Boid3D.align, Boid3D.alignStep, Vec3.distance_self]

/-- In a flock whose only member is the querying boid, `cohesion` finds no
neighbor and returns the zero vector. -/
theorem cohesion_single (b : Boid3D) (gs ga gc : ℝ) (tgt : Option Vec3) :
    b.cohesion ⟨[b], gs, ga, gc, tgt⟩ = Vec3.zero := by
  simp [Boid3D.cohesion, Boid3D.cohStep, Vec3.distance_self]

/-- One tick of a boid alone in a targetless flock: all four forces vanish,
the velocity survives the four speed clamps, and the position advances by
four times the velocity, one velocity per `with_force` application. -/
theorem update_single_eq (b : Boid3D) (gs ga gc : ℝ)
    (h : b.velocity.magnitude ≤ b.max_speed) :
    b.update ⟨[b], gs, ga, gc, none⟩ =
      { b with position := b.position.add (b.velocity.smul 4), acceleration := Vec3.zero } := by
  have hsep := separate_single b gs ga gc none
  have halign := align_single b gs ga gc none
  have hcoh := cohesion_single b gs ga gc none
  simp only [Boid3D.update, hsep, halign, hcoh, Option.map_none', Option.getD_none,
    Vec3.zero_smul_left, Boid3D.with_force, Vec3.add_zero, Vec3.smul_zero_right,
    limit_magnitude_of_le _ _ h]
  ext <;> simp [Vec3.add, Vec3.smul, Vec3.zero] <;> ring

/-- Separation against a single stationary querying boid and one neighbor in
range: the result is the away-vector from the neighbor rescaled by the
Reynolds conversion to magnitude `min max_speed max_force`, hence carrying
the coefficient `min max_speed max_force / d`. -/
theorem separate_pair (A B : Boid3D) (gs ga gc : ℝ) (tgt : Option Vec3)
    (hvA : A.velocity = Vec3.zero)
    (hd : 0 < Vec3.distance A.position B.position)
    (hgs : Vec3.distance A.position B.position < gs)
    (hms : 0 < A.max_speed) (hmf : 0 < A.max_force) :
    A.separate ⟨[A, B], gs, ga, gc, tgt⟩ =
      (A.position.sub B.position).smul
        (min A.max_speed A.max_force / Vec3.distance A.position B.position) := by
  set d := Vec3.distance A.position B.position with hdd
  set w := A.position.sub B.position with hww
  have hd0 : d ≠ 0 := ne_of_gt hd
  have hwd : w.magnitude = d := by
    rw [hww, Vec3.magnitude_sub_comm, hdd, Vec3.distance]
  have hw0 : w ≠ Vec3.zero := by
    intro h0
    rw [h0, Vec3.magnitude_zero] at hwd
    exact ne_of_gt hd hwd.symm
  have hsc : 1 / (d * d) * d = 1 / d := by
    field_simp
  have hstep1 : A.sepStep gs (Vec3.zero, 0) A = (Vec3.zero, 0) := by
    simp [Boid3D.sepStep, Vec3.distance_self]
  have hstep2 : A.sepStep gs (Vec3.zero, 0) B = (w.smul (1 / (d * d)), 1) := by
    simp only [Boid3D.sepStep]
    rw [← hdd, if_pos ⟨hd, hgs⟩]
    congr 1
    · rw [Vec3.zero_add, Vec3.normalize, ← hww, hwd, Vec3.divScalar_eq_smul, Vec3.smul_smul]
      congr 1
      ring
    · norm_num
  have hacc : [A, B].foldl (A.sepStep gs) (Vec3.zero, 0) = (w.smul (1 / (d * d)), 1) := by
    rw [List.foldl_cons, List.foldl_cons, List.foldl_nil, hstep1, hstep2]
  have hmag : (w.smul (1 / (d * d))).magnitude = 1 / d := by
    rw [Vec3.magnitude_smul, hwd, abs_of_pos (one_div_pos.mpr (mul_pos hd hd)), hsc]
  have hnorm : (w.smul (1 / (d * d))).normalize = w.smul (1 / d) := by
    rw [Vec3.normalize, hmag, Vec3.smul_smul, one_div_one_div, hsc]
  have hXmag : (w.smul (A.max_speed / d)).magnitude = A.max_speed := by
    rw [Vec3.magnitude_smul, hwd, abs_of_pos (div_pos hms hd), div_mul_cancel₀ _ hd0]
  simp only [Boid3D.separate]
  rw [hacc]
  dsimp only
  rw [if_pos (zero_lt_one : (0:ℝ) < 1), Vec3.divScalar_one, hmag,
    if_pos (one_div_pos.mpr hd), hnorm, hvA, Vec3.sub_zero, Vec3.smul_smul,
    show 1 / d * A.max_speed = A.max_speed / d from by ring]
  simp only [limit_magnitude_v3]
  rw [hXmag]
  by_cases hc : A.max_force < A.max_speed
  · rw [if_pos hc, Vec3.normalize, hXmag, Vec3.smul_smul, Vec3.smul_smul,
      min_eq_right hc.le]
    congr 1
    field_simp
    ring
  · rw [if_neg hc, min_eq_left (not_lt.mp hc)]

/-- A fold whose step fixes the accumulator on every list element returns
the initial accumulator. -/
theorem foldl_of_fixed {α β : Type} (f : β → α → β) (l : List α) (acc : β)
    (h : ∀ (a : β) (x : α), x ∈ l → f a x = a) : l.foldl f acc = acc := by
  induction l generalizing acc with
  | nil => rfl
  | cons x t ih =>
    rw [List.foldl_cons, h acc x (List.mem_cons_self x t)]
    exact ih acc fun a y hy => h a y (List.mem_cons_of_mem x hy)

/-- Elements on which the step fixes the accumulator can be filtered out of
a fold without changing its result. -/
theorem foldl_filter_eq {α β : Type} (f : β → α → β) (p : α → Bool) (l : List α) (acc : β)
    (h : ∀ (a : β) (x : α), p x = false → f a x = a) :
    (l.filter p).foldl f acc = l.foldl f acc := by
  induction l generalizing acc with
  | nil => rfl
  | cons x t ih =>
    rw [List.filter_cons]
    by_cases hp : p x
    · rw [if_pos hp, List.foldl_cons, List.foldl_cons]
      exact ih (f acc x)
    · rw [if_neg hp, List.foldl_cons, h acc x (by simpa using hp)]
      exact ih acc

/-- The separation step ignores a boid outside the radius condition. -/
theorem sepStep_of_far (b : Boid3D) (gs : ℝ) (acc : Vec3 × ℝ) (o : Boid3D)
    (h : ¬ b.withinRadius gs o) : b.sepStep gs acc o = acc := by
  simp only [Boid3D.sepStep]
  exact if_neg h

/-- The alignment step ignores a boid outside the radius condition. -/
theorem alignStep_of_far (b : Boid3D) (ga : ℝ) (acc : Vec3 × ℝ) (o : Boid3D)
    (h : ¬ b.withinRadius ga o) : b.alignStep ga acc o = acc := by
  simp only [Boid3D.alignStep]
  exact if_neg h

/-- The cohesion step ignores a boid outside the radius condition. -/
theorem cohStep_of_far (b : Boid3D) (gc : ℝ) (acc : Vec3 × ℝ) (o : Boid3D)
    (h : ¬ b.withinRadius gc o) : b.cohStep gc acc o = acc := by
  simp only [Boid3D.cohStep]
  exact if_neg h

/-- With no flock member inside the separation radius, `separate` is zero. -/
theorem separate_no_neighbor (b : Boid3D) (flock : Flock)
    (h : ∀ o ∈ flock.boids, ¬ b.withinRadius flock.goal_separation o) :
    b.separate flock = Vec3.zero := by
  simp only [Boid3D.separate]
  rw [foldl_of_fixed _ _ _ fun a x hx => sepStep_of_far b _ a x (h x hx)]
  simp [Vec3.magnitude_zero]

/-- With no flock member inside the alignment radius, `align` is zero. -/
theorem align_no_neighbor (b : Boid3D) (flock : Flock)
    (h : ∀ o ∈ flock.boids, ¬ b.withinRadius flock.goal_alignment o) :
    b.align flock = Vec3.zero := by
  simp only [Boid3D.align]
  rw [foldl_of_fixed _ _ _ fun a x hx => alignStep_of_far b _ a x (h x hx)]
  simp

/-- With no flock member inside the cohesion radius, `cohesion` is zero. -/
theorem cohesion_no_neighbor (b : Boid3D) (flock : Flock)
    (h : ∀ o ∈ flock.boids, ¬ b.withinRadius flock.goal_cohesion o) :
    b.cohesion flock = Vec3.zero := by
  simp only [Boid3D.cohesion]
  rw [foldl_of_fixed _ _ _ fun a x hx => cohStep_of_far b _ a x (h x hx)]
  simp

/-- A non-positive radius admits no neighbor at all. -/
theorem withinRadius_nonpos (b : Boid3D) (radius : ℝ) (hr : radius ≤ 0) (o : Boid3D) :
    ¬ b.withinRadius radius o := by
  rintro ⟨h1, h2⟩
  linarith

/-- The magnitude of an x-axis vector is the absolute value of its single
nonzero component. -/
theorem magnitude_axis (c : ℝ) : (Vec3.mk c 0 0).magnitude = |c| := by
  simp [Vec3.magnitude, Real.sqrt_mul_self_eq_abs]

/-- The two C9 boids sit one unit apart. -/
theorem distC9 : Vec3.distance aC9.position bC9.position = 1 := by
  rw [Vec3.distance,
    show bC9.position.sub aC9.position = ⟨1, 0, 0⟩ from by ext <;> simp [aC9, bC9, Vec3.sub],
    magnitude_axis]
  norm_num

/-- The separation force on `aC9` in `flockC9` is `(-2, 0, 0)`: the unit
away-vector from `bC9` scaled to `max_speed` (below `max_force = 100`). -/
theorem sepC9 : aC9.separate flockC9 = ⟨-2, 0, 0⟩ := by
  rw [show flockC9 = (⟨[aC9, bC9], 10, 0, 0, some ⟨8, 0, 0⟩⟩ : Flock) from rfl,
    separate_pair aC9 bC9 10 0 0 (some ⟨8, 0, 0⟩) rfl (by rw [distC9]; norm_num)
      (by rw [distC9]; norm_num) (by norm_num [aC9]) (by norm_num [aC9]),
    distC9,
    show aC9.position.sub bC9.position = ⟨-1, 0, 0⟩ from by ext <;> simp [aC9, bC9, Vec3.sub],
    show min aC9.max_speed aC9.max_force = 2 from min_eq_left (by norm_num [aC9])]
  ext <;> simp [Vec3.smul]

/-- With a zero alignment radius, `aC9` receives no alignment force. -/
theorem alignC9 : aC9.align flockC9 = Vec3.zero :=
  align_no_neighbor _ _ fun o _ => withinRadius_nonpos _ _ le_rfl o

/-- With a zero cohesion radius, `aC9` receives no cohesion force. -/
theorem cohC9 : aC9.cohesion flockC9 = Vec3.zero :=
  cohesion_no_neighbor _ _ fun o _ => withinRadius_nonpos _ _ le_rfl o

/-- Clamping `(6,0,0)` to magnitude 2 yields `(2,0,0)`. -/
theorem limit_six : limit_magnitude_v3 ⟨6, 0, 0⟩ 2 = ⟨2, 0, 0⟩ := by
  unfold limit_magnitude_v3
  rw [magnitude_axis, if_pos (by norm_num : (2:ℝ) < |6|), Vec3.normalize, magnitude_axis]
  ext <;> simp [Vec3.smul] <;> norm_num

/-- First step of the C9 sequential chain: applying the separation force. -/
theorem wf1C9 : aC9.with_force ⟨-2, 0, 0⟩ =
    ⟨⟨-2, 0, 0⟩, ⟨-2, 0, 0⟩, Vec3.zero, 2, 100, 2, ⟨1, 1, 1, 1⟩⟩ := by
  simp only [Boid3D.with_force, aC9]
  rw [show (⟨0, 0, 0⟩ : Vec3).add ⟨-2, 0, 0⟩ = ⟨-2, 0, 0⟩ from by ext <;> simp [Vec3.add],
    limit_magnitude_of_le _ _ (by rw [magnitude_axis]; norm_num)]
  ext <;> simp [Vec3.add, Vec3.smul, Vec3.zero]

/-- Second step of the C9 chain: the zero alignment force only advances the
position by the velocity. -/
theorem wf2C9 : (⟨⟨-2, 0, 0⟩, ⟨-2, 0, 0⟩, Vec3.zero, 2, 100, 2, ⟨1, 1, 1, 1⟩⟩ : Boid3D).with_force
    Vec3.zero = ⟨⟨-4, 0, 0⟩, ⟨-2, 0, 0⟩, Vec3.zero, 2, 100, 2, ⟨1, 1, 1, 1⟩⟩ := by
  simp only [Boid3D.with_force, Vec3.add_zero]
  rw [limit_magnitude_of_le _ _ (by rw [magnitude_axis]; norm_num)]
  ext <;> simp [Vec3.add, Vec3.smul, Vec3.zero] <;> norm_num

/-- Third step of the C9 chain: the zero cohesion force, same effect. -/
theorem wf3C9 : (⟨⟨-4, 0, 0⟩, ⟨-2, 0, 0⟩, Vec3.zero, 2, 100, 2, ⟨1, 1, 1, 1⟩⟩ : Boid3D).with_force
    Vec3.zero = ⟨⟨-6, 0, 0⟩, ⟨-2, 0, 0⟩, Vec3.zero, 2, 100, 2, ⟨1, 1, 1, 1⟩⟩ := by
  simp only [Boid3D.with_force, Vec3.add_zero]
  rw [limit_magnitude_of_le _ _ (by rw [magnitude_axis]; norm_num)]
  ext <;> simp [Vec3.add, Vec3.smul, Vec3.zero] <;> norm_num

/-- Fourth step of the C9 chain: the targeting force gets speed-clamped. -/
theorem wf4C9 : (⟨⟨-6, 0, 0⟩, ⟨-2, 0, 0⟩, Vec3.zero, 2, 100, 2, ⟨1, 1, 1, 1⟩⟩ : Boid3D).with_force
    ⟨8, 0, 0⟩ = ⟨⟨-4, 0, 0⟩, ⟨2, 0, 0⟩, Vec3.zero, 2, 100, 2, ⟨1, 1, 1, 1⟩⟩ := by
  simp only [Boid3D.with_force]
  rw [show (⟨-2, 0, 0⟩ : Vec3).add ⟨8, 0, 0⟩ = ⟨6, 0, 0⟩ from by
      ext <;> simp [Vec3.add] <;> norm_num,
    limit_six]
  ext <;> simp [Vec3.add, Vec3.smul, Vec3.zero] <;> norm_num

/-- The C9 sequential tick: position ends at `(-4,0,0)`. -/
theorem updC9 : aC9.update flockC9 =
    ⟨⟨-4, 0, 0⟩, ⟨2, 0, 0⟩, Vec3.zero, 2, 100, 2, ⟨1, 1, 1, 1⟩⟩ := by
  simp only [Boid3D.update, sepC9, alignC9, cohC9]
  rw [show flockC9.target = some ⟨8, 0, 0⟩ from rfl]
  simp only [Option.map_some', Option.getD_some]
  rw [show aC9.weights.separation = 1 from rfl, show aC9.weights.alignment = 1 from rfl,
    show aC9.weights.cohesion = 1 from rfl, show aC9.weights.targeting = 1 from rfl]
  simp only [Vec3.smul_one, Vec3.zero_smul_left]
  rw [show (⟨8, 0, 0⟩ : Vec3).sub aC9.position = ⟨8, 0, 0⟩ from by
      ext <;> simp [aC9, Vec3.sub],
    wf1C9, wf2C9, wf3C9, wf4C9]

/-- The C9 naive sum applied once: position ends at `(2,0,0)` instead. -/
theorem sumC9 : aC9.with_force
    (((((aC9.separate flockC9).smul aC9.weights.separation).add
        ((aC9.align flockC9).smul aC9.weights.alignment)).add
      ((aC9.cohesion flockC9).smul aC9.weights.cohesion)).add
      (((flockC9.target.map fun t => t.sub aC9.position).getD Vec3.zero).smul
        aC9.weights.targeting)) =
    ⟨⟨2, 0, 0⟩, ⟨2, 0, 0⟩, Vec3.zero, 2, 100, 2, ⟨1, 1, 1, 1⟩⟩ := by
  rw [sepC9, alignC9, cohC9, show flockC9.target = some ⟨8, 0, 0⟩ from rfl]
  simp only [Option.map_some', Option.getD_some]
  rw [show aC9.weights.separation = 1 from rfl, show aC9.weights.alignment = 1 from rfl,
    show aC9.weights.cohesion = 1 from rfl, show aC9.weights.targeting = 1 from rfl]
  simp only [Vec3.smul_one, Vec3.zero_smul_left, Vec3.add_zero]
  rw [show (⟨8, 0, 0⟩ : Vec3).sub aC9.position = ⟨8, 0, 0⟩ from by
      ext <;> simp [aC9, Vec3.sub],
    show (⟨-2, 0, 0⟩ : Vec3).add ⟨8, 0, 0⟩ = ⟨6, 0, 0⟩ from by
      ext <;> simp [Vec3.add] <;> norm_num]
  simp only [Boid3D.with_force, aC9]
  rw [show (⟨0, 0, 0⟩ : Vec3).add ⟨6, 0, 0⟩ = ⟨6, 0, 0⟩ from by ext <;> simp [Vec3.add],
    limit_six]
  ext <;> simp [Vec3.add, Vec3.smul, Vec3.zero]

/-- Claim C1: for every 3D boid `b` and force `f`, `with_force` returns a
boid whose velocity is `limit_magnitude(b.velocity + f, b.max_speed)`, whose
position is `b.position` plus that clamped velocity, and whose acceleration
is the zero vector.  (`b` itself is untouched: the embedding is a pure
function of `b`.) -/
theorem with_force_spec (b : Boid3D) (f : Vec3) :
    (b.with_force f).velocity = limit_magnitude_v3 (b.velocity.add f) b.max_speed ∧
    (b.with_force f).position =
      b.position.add (limit_magnitude_v3 (b.velocity.add f) b.max_speed) ∧
    (b.with_force f).acceleration = Vec3.zero :=
  ⟨rfl, rfl, Vec3.smul_zero_right _⟩

/-- Claim C2: `update` is the four-fold sequential `with_force` application,
in the order separation, alignment, cohesion, targeting, each force scaled
by its weight; the targeting force is `target − position` when the flock has
a target and zero otherwise, bypassing the Reynolds conversion. -/
theorem update_sequential (b : Boid3D) (flock : Flock) :
    b.update flock =
      (((b.with_force ((b.separate flock).smul b.weights.separation)).with_force
          ((b.align flock).smul b.weights.alignment)).with_force
        ((b.cohesion flock).smul b.weights.cohesion)).with_force
        ((match flock.target with
          | some t => t.sub b.position
          | none => Vec3.zero).smul b.weights.targeting) := by
  cases h : flock.target <;> simp [Boid3D.update, h]

/-- Claim C3 (amended): for a boid alone in a targetless flock whose speed
respects its own cap, `update` leaves the velocity unchanged, but the
position still advances by four times the velocity — one velocity per
`with_force` step — rather than staying unchanged. -/
theorem update_singleton_no_target (b : Boid3D) (gs ga gc : ℝ)
    (h : b.velocity.magnitude ≤ b.max_speed) :
    (b.update ⟨[b], gs, ga, gc, none⟩).velocity = b.velocity ∧
    (b.update ⟨[b], gs, ga, gc, none⟩).position = b.position.add (b.velocity.smul 4) := by
  rw [update_single_eq b gs ga gc h]
  exact ⟨rfl, rfl⟩

/-- Claim C3, counterexample: the boid `b0` (unit velocity, alone, no
target) does not keep its position over one tick. -/
theorem update_singleton_moves : (b0.update flock0).position ≠ b0.position := by
  have h : b0.velocity.magnitude ≤ b0.max_speed := by
    rw [show b0.velocity = ⟨1, 0, 0⟩ from rfl, magnitude_axis]
    norm_num [b0]
  rw [show flock0 = (⟨[b0], 1, 1, 1, none⟩ : Flock) from rfl, update_single_eq b0 1 1 1 h]
  dsimp only
  simp [b0, Vec3.add, Vec3.smul, Vec3.mk.injEq]

/-- Claim C3, witness: the amended statement instantiated at `b0`. -/
theorem update_singleton_no_target_witness :
    (b0.update ⟨[b0], 1, 1, 1, none⟩).velocity = b0.velocity ∧
    (b0.update ⟨[b0], 1, 1, 1, none⟩).position = b0.position.add (b0.velocity.smul 4) :=
  update_singleton_no_target b0 1 1 1
    (by rw [show b0.velocity = ⟨1, 0, 0⟩ from rfl, magnitude_axis]; norm_num [b0])

/-- Claim C4 (amended): two stationary boids at distance `0 < d <
goal_separation`: `separate` on A returns a nonzero vector pointing away
from B — a positive multiple of `A.position − B.position` — but its
magnitude is `min max_speed max_force`, the coefficient being
`min max_speed max_force / d`, not the claimed `1/d` scaling. -/
theorem separate_two_boid_away (A B : Boid3D) (gs ga gc : ℝ) (tgt : Option Vec3)
    (hvA : A.velocity = Vec3.zero) (hvB : B.velocity = Vec3.zero)
    (hd : 0 < Vec3.distance A.position B.position)
    (hgs : Vec3.distance A.position B.position < gs)
    (hms : 0 < A.max_speed) (hmf : 0 < A.max_force) :
    A.separate ⟨[A, B], gs, ga, gc, tgt⟩ =
      (A.position.sub B.position).smul
        (min A.max_speed A.max_force / Vec3.distance A.position B.position) ∧
    A.separate ⟨[A, B], gs, ga, gc, tgt⟩ ≠ Vec3.zero := by
  have heq := separate_pair A B gs ga gc tgt hvA hd hgs hms hmf
  refine ⟨heq, ?_⟩
  rw [heq]
  have hw0 : A.position.sub B.position ≠ Vec3.zero := by
    intro h0
    have hz : Vec3.distance A.position B.position = 0 := by
      rw [Vec3.distance_eq, h0, Vec3.magnitude_zero]
    linarith
  exact Vec3.smul_ne_zero_vec _ _ hw0 (ne_of_gt (div_pos (lt_min hms hmf) hd))

/-- Claim C4, counterexample: at distance `d = 1/2` the returned separation
force is `(-3/100, 0, 0)` — clamped to `max_force` — not the away-vector
scaled by `1/d`, which would be `(-2, 0, 0)`. -/
theorem separate_not_inverse_distance :
    aC4.separate flockC4 ≠
      ((aC4.position.sub bC4.position).normalize).divScalar
        (Vec3.distance aC4.position bC4.position) := by
  have hd : Vec3.distance aC4.position bC4.position = 1 / 2 := by
    rw [Vec3.distance,
      show bC4.position.sub aC4.position = ⟨1 / 2, 0, 0⟩ from by
        ext <;> simp [aC4, bC4, Vec3.sub],
      magnitude_axis]
    norm_num
  have hsep : aC4.separate flockC4 = ⟨-3 / 100, 0, 0⟩ := by
    rw [show flockC4 = (⟨[aC4, bC4], 1, 1, 1, none⟩ : Flock) from rfl,
      separate_pair aC4 bC4 1 1 1 none rfl (by rw [hd]; norm_num) (by rw [hd]; norm_num)
        (by norm_num [aC4]) (by norm_num [aC4]),
      hd,
      show aC4.position.sub bC4.position = ⟨-(1 / 2), 0, 0⟩ from by
        ext <;> simp [aC4, bC4, Vec3.sub] <;> norm_num,
      show min aC4.max_speed aC4.max_force = 3 / 100 from min_eq_right (by norm_num [aC4])]
    ext <;> simp [Vec3.smul] <;> norm_num
  have hrhs : ((aC4.position.sub bC4.position).normalize).divScalar
      (Vec3.distance aC4.position bC4.position) = ⟨-2, 0, 0⟩ := by
    rw [hd,
      show aC4.position.sub bC4.position = ⟨-(1 / 2), 0, 0⟩ from by
        ext <;> simp [aC4, bC4, Vec3.sub] <;> norm_num,
      Vec3.normalize, magnitude_axis, show |(-(1 / 2) : ℝ)| = 1 / 2 from by norm_num]
    ext <;> simp [Vec3.smul, Vec3.divScalar] <;> norm_num
  rw [hsep, hrhs]
  intro h
  have hx := congrArg Vec3.x h
  rw [show (⟨-3 / 100, 0, 0⟩ : Vec3).x = -3 / 100 from rfl,
    show (⟨-2, 0, 0⟩ : Vec3).x = -2 from rfl] at hx
  norm_num at hx

/-- Claim C4, witness: the amended statement instantiated at the concrete
pair `aC4`, `bC4`. -/
theorem separate_two_boid_away_witness :
    aC4.separate ⟨[aC4, bC4], 1, 1, 1, none⟩ =
      (aC4.position.sub bC4.position).smul
        (min aC4.max_speed aC4.max_force / Vec3.distance aC4.position bC4.position) ∧
    aC4.separate ⟨[aC4, bC4], 1, 1, 1, none⟩ ≠ Vec3.zero := by
  have hd : Vec3.distance aC4.position bC4.position = 1 / 2 := by
    rw [Vec3.distance,
      show bC4.position.sub aC4.position = ⟨1 / 2, 0, 0⟩ from by
        ext <;> simp [aC4, bC4, Vec3.sub],
      magnitude_axis]
    norm_num
  exact separate_two_boid_away aC4 bC4 1 1 1 none rfl rfl (by rw [hd]; norm_num)
    (by rw [hd]; norm_num) (by norm_num [aC4]) (by norm_num [aC4])

/-- Claim C5: `separate` applies the Reynolds conversion only when the
averaged steer has nonzero magnitude, returning the accumulated vector
directly otherwise, whereas `align` and `cohesion` apply the full Reynolds
conversion whenever the neighbor count is positive. -/
theorem reynolds_asymmetry (b : Boid3D) (flock : Flock) :
    (b.separate flock =
      if 0 < (if 0 < (b.sepAcc flock).2 then (b.sepAcc flock).1.divScalar (b.sepAcc flock).2
          else (b.sepAcc flock).1).magnitude then
        b.reynolds (if 0 < (b.sepAcc flock).2 then
          (b.sepAcc flock).1.divScalar (b.sepAcc flock).2 else (b.sepAcc flock).1)
      else
        (if 0 < (b.sepAcc flock).2 then (b.sepAcc flock).1.divScalar (b.sepAcc flock).2
          else (b.sepAcc flock).1)) ∧
    (b.align flock =
      if 0 < (b.alignAcc flock).2 then
        b.reynolds ((b.alignAcc flock).1.divScalar (b.alignAcc flock).2)
      else Vec3.zero) ∧
    (b.cohesion flock =
      if 0 < (b.cohAcc flock).2 then
        b.reynolds (((b.cohAcc flock).1.divScalar (b.cohAcc flock).2).sub b.position)
      else Vec3.zero) :=
  ⟨rfl, rfl, rfl⟩

/-- Claim C6: only members at strict distance `0 < d < radius` contribute to
each behavior's accumulator (the others can be filtered out without changing
it), and with no such member each of the three methods returns zero — in
particular the querying boid never counts itself and a co-located or
out-of-range boid contributes nothing. -/
theorem neighbor_contribution (b : Boid3D) (flock : Flock) :
    (b.sepAcc flock = b.sepAcc
      ⟨flock.boids.filter fun o => decide (b.withinRadius flock.goal_separation o),
        flock.goal_separation, flock.goal_alignment, flock.goal_cohesion, flock.target⟩) ∧
    (b.alignAcc flock = b.alignAcc
      ⟨flock.boids.filter fun o => decide (b.withinRadius flock.goal_alignment o),
        flock.goal_separation, flock.goal_alignment, flock.goal_cohesion, flock.target⟩) ∧
    (b.cohAcc flock = b.cohAcc
      ⟨flock.boids.filter fun o => decide (b.withinRadius flock.goal_cohesion o),
        flock.goal_separation, flock.goal_alignment, flock.goal_cohesion, flock.target⟩) ∧
    ((∀ o ∈ flock.boids, ¬ b.withinRadius flock.goal_separation o) →
      b.separate flock = Vec3.zero) ∧
    ((∀ o ∈ flock.boids, ¬ b.withinRadius flock.goal_alignment o) →
      b.align flock = Vec3.zero) ∧
    ((∀ o ∈ flock.boids, ¬ b.withinRadius flock.goal_cohesion o) →
      b.cohesion flock = Vec3.zero) := by
  refine ⟨?_, ?_, ?_, separate_no_neighbor b flock, align_no_neighbor b flock,
    cohesion_no_neighbor b flock⟩
  · simp only [Boid3D.sepAcc]
    exact (foldl_filter_eq _ _ _ _ fun a x hx =>
      sepStep_of_far b _ a x (of_decide_eq_false hx)).symm
  · simp only [Boid3D.alignAcc]
    exact (foldl_filter_eq _ _ _ _ fun a x hx =>
      alignStep_of_far b _ a x (of_decide_eq_false hx)).symm
  · simp only [Boid3D.cohAcc]
    exact (foldl_filter_eq _ _ _ _ fun a x hx =>
      cohStep_of_far b _ a x (of_decide_eq_false hx)).symm

/-- Claim C6, witness: in an empty flock all three methods return zero. -/
theorem neighbor_contribution_witness :
    b0.separate ⟨[], 1, 1, 1, none⟩ = Vec3.zero ∧
    b0.align ⟨[], 1, 1, 1, none⟩ = Vec3.zero ∧
    b0.cohesion ⟨[], 1, 1, 1, none⟩ = Vec3.zero :=
  ⟨(neighbor_contribution b0 ⟨[], 1, 1, 1, none⟩).2.2.2.1 fun o ho =>
      absurd ho (List.not_mem_nil o),
    (neighbor_contribution b0 ⟨[], 1, 1, 1, none⟩).2.2.2.2.1 fun o ho =>
      absurd ho (List.not_mem_nil o),
    (neighbor_contribution b0 ⟨[], 1, 1, 1, none⟩).2.2.2.2.2 fun o ho =>
      absurd ho (List.not_mem_nil o)⟩

/-- The post-processing of `separate`: for any accumulated steer, the result
is zero (when the steer has zero magnitude) or clamped to `max_force`. -/
theorem sep_post_bound (b : Boid3D) (steer : Vec3) (h : 0 ≤ b.max_force) :
    (if 0 < steer.magnitude then
        limit_magnitude_v3 ((steer.normalize.smul b.max_speed).sub b.velocity) b.max_force
      else steer) = Vec3.zero ∨
    (if 0 < steer.magnitude then
        limit_magnitude_v3 ((steer.normalize.smul b.max_speed).sub b.velocity) b.max_force
      else steer).magnitude ≤ b.max_force := by
  by_cases h1 : 0 < steer.magnitude
  · rw [if_pos h1]
    exact Or.inr (limit_magnitude_le _ _ h)
  · rw [if_neg h1]
    exact Or.inl ((Vec3.magnitude_eq_zero_iff _).mp
      (le_antisymm (not_lt.mp h1) (Vec3.magnitude_nonneg _)))

/-- The post-processing of `align` and `cohesion`: zero when no neighbor,
otherwise clamped to `max_force`. -/
theorem reynolds_bound (b : Boid3D) (v : Vec3) (count : ℝ) (h : 0 ≤ b.max_force) :
    (if 0 < count then
        limit_magnitude_v3 ((v.normalize.smul b.max_speed).sub b.velocity) b.max_force
      else Vec3.zero) = Vec3.zero ∨
    (if 0 < count then
        limit_magnitude_v3 ((v.normalize.smul b.max_speed).sub b.velocity) b.max_force
      else Vec3.zero).magnitude ≤ b.max_force := by
  by_cases h1 : 0 < count
  · rw [if_pos h1]
    exact Or.inr (limit_magnitude_le _ _ h)
  · rw [if_neg h1]
    exact Or.inl rfl

/-- Claim C7: with non-negative `max_force`, each of `separate`, `align`,
`cohesion` returns either the zero vector or a vector of magnitude at most
`max_force`. -/
theorem force_bounded (b : Boid3D) (flock : Flock) (h : 0 ≤ b.max_force) :
    (b.separate flock = Vec3.zero ∨ (b.separate flock).magnitude ≤ b.max_force) ∧
    (b.align flock = Vec3.zero ∨ (b.align flock).magnitude ≤ b.max_force) ∧
    (b.cohesion flock = Vec3.zero ∨ (b.cohesion flock).magnitude ≤ b.max_force) :=
  ⟨sep_post_bound b _ h, reynolds_bound b _ _ h, reynolds_bound b _ _ h⟩

/-- Claim C7, witness: the bound instantiated at `b0` in `flock0`. -/
theorem force_bounded_witness :
    (b0.separate flock0 = Vec3.zero ∨ (b0.separate flock0).magnitude ≤ b0.max_force) ∧
    (b0.align flock0 = Vec3.zero ∨ (b0.align flock0).magnitude ≤ b0.max_force) ∧
    (b0.cohesion flock0 = Vec3.zero ∨ (b0.cohesion flock0).magnitude ≤ b0.max_force) :=
  force_bounded b0 flock0 (by norm_num [b0])

/-- Claim C8: with non-negative `max_speed`, the velocity of the boid
returned by `with_force` has magnitude at most `max_speed`, for any input
force; and the boid returned by `update` satisfies the same cap. -/
theorem speed_cap (b : Boid3D) (f : Vec3) (flock : Flock) (h : 0 ≤ b.max_speed) :
    (b.with_force f).velocity.magnitude ≤ b.max_speed ∧
    (b.update flock).velocity.magnitude ≤ b.max_speed :=
  ⟨limit_magnitude_le _ _ h, limit_magnitude_le _ _ h⟩

/-- Claim C8, witness: the cap instantiated at `b0` with a force of
magnitude 100, far above `max_speed = 2`. -/
theorem speed_cap_witness :
    (b0.with_force ⟨100, 0, 0⟩).velocity.magnitude ≤ b0.max_speed ∧
    (b0.update flock0).velocity.magnitude ≤ b0.max_speed :=
  speed_cap b0 ⟨100, 0, 0⟩ flock0 (by norm_num [b0])

/-- Claim C9: there exist a boid and a flock with two nonzero weighted
forces (separation and targeting) on which sequential four-fold
`with_force` application differs from a single `with_force` of the summed
weighted forces. -/
theorem sequential_ne_summed :
    ∃ (b : Boid3D) (flock : Flock),
      (b.separate flock).smul b.weights.separation ≠ Vec3.zero ∧
      ((flock.target.map fun t => t.sub b.position).getD Vec3.zero).smul
        b.weights.targeting ≠ Vec3.zero ∧
      b.update flock ≠
        b.with_force
          (((((b.separate flock).smul b.weights.separation).add
              ((b.align flock).smul b.weights.alignment)).add
            ((b.cohesion flock).smul b.weights.cohesion)).add
            (((flock.target.map fun t => t.sub b.position).getD Vec3.zero).smul
              b.weights.targeting)) := by
  refine ⟨aC9, flockC9, ?_, ?_, ?_⟩
  · rw [sepC9, show aC9.weights.separation = 1 from rfl, Vec3.smul_one]
    intro h
    have hx := congrArg Vec3.x h
    rw [show (⟨-2, 0, 0⟩ : Vec3).x = -2 from rfl, show Vec3.zero.x = 0 from rfl] at hx
    norm_num at hx
  · rw [show flockC9.target = some ⟨8, 0, 0⟩ from rfl]
    simp only [Option.map_some', Option.getD_some]
    rw [show (⟨8, 0, 0⟩ : Vec3).sub aC9.position = ⟨8, 0, 0⟩ from by
        ext <;> simp [aC9, Vec3.sub],
      show aC9.weights.targeting = 1 from rfl, Vec3.smul_one]
    intro h
    have hx := congrArg Vec3.x h
    rw [show (⟨8, 0, 0⟩ : Vec3).x = 8 from rfl, show Vec3.zero.x = 0 from rfl] at hx
    norm_num at hx
  · rw [updC9, sumC9]
    intro h
    have hx := congrArg (fun s : Boid3D => s.position.x) h
    simp only at hx
    norm_num at hx

/-- Claim C10: `with_force` preserves `max_speed`, `max_force`, the
turn-rate bound `r`, and the weights; `update` therefore does too. -/
theorem frame_preserved (b : Boid3D) (f : Vec3) (flock : Flock) :
    ((b.with_force f).max_speed = b.max_speed ∧ (b.with_force f).max_force = b.max_force ∧
      (b.with_force f).r = b.r ∧ (b.with_force f).weights = b.weights) ∧
    ((b.update flock).max_speed = b.max_speed ∧ (b.update flock).max_force = b.max_force ∧
      (b.update flock).r = b.r ∧ (b.update flock).weights = b.weights) :=
  ⟨⟨rfl, rfl, rfl, rfl⟩, ⟨rfl, rfl, rfl, rfl⟩⟩

end Boids
